import Mathlib

/-!
Verification of the less-crap-netlify-analytics core logic.

The definitions below are a shallow embedding of the two non-presentational
modules of the repository:

* `netlify/functions/api.ts` — the serverless proxy: request-body validation,
  symbolic time-range resolution, query-string building, and the bandwidth
  response normalization shim.
* `src/services/netlifyApi.ts` — the browser gateway (`fetchNetlifyData` plus
  the seven metric operations), `formatBytes`, and `exportToCsv`.

JSON values are modelled by the inductive `Json` below.  JavaScript numbers
are modelled as `Int` (every numeric literal the code manipulates is an
integer number of milliseconds or bytes); property access on `null` is
modelled as a thrown `TypeError` (`Except.error`), mirroring the runtime.
-/

/-- A parsed JSON value.  Numbers are integers (all numbers handled by the
repository are epoch milliseconds, counts or byte counts).  Objects are
association lists in insertion order. -/
inductive Json where
  | null
  | bool (b : Bool)
  | num (n : Int)
  | str (s : String)
  | arr (elems : List Json)
  | obj (fields : List (String × Json))

mutual

def Json.decEq : (a b : Json) → Decidable (a = b)
  | .null, .null => isTrue rfl
  | .bool a, .bool b =>
    match Bool.decEq a b with
    | isTrue h => isTrue (h ▸ rfl)
    | isFalse h => isFalse (fun heq => h (Json.bool.inj heq))
  | .num a, .num b =>
    match Int.decEq a b with
    | isTrue h => isTrue (h ▸ rfl)
    | isFalse h => isFalse (fun heq => h (Json.num.inj heq))
  | .str a, .str b =>
    match String.decEq a b with
    | isTrue h => isTrue (h ▸ rfl)
    | isFalse h => isFalse (fun heq => h (Json.str.inj heq))
  | .arr xs, .arr ys =>
    match Json.decEqList xs ys with
    | isTrue h => isTrue (h ▸ rfl)
    | isFalse h => isFalse (fun heq => h (Json.arr.inj heq))
  | .obj fs, .obj gs =>
    match Json.decEqFields fs gs with
    | isTrue h => isTrue (h ▸ rfl)
    | isFalse h => isFalse (fun heq => h (Json.obj.inj heq))
  | .null, .bool _ | .null, .num _ | .null, .str _ | .null, .arr _ | .null, .obj _
  | .bool _, .null | .bool _, .num _ | .bool _, .str _ | .bool _, .arr _ | .bool _, .obj _
  | .num _, .null | .num _, .bool _ | .num _, .str _ | .num _, .arr _ | .num _, .obj _
  | .str _, .null | .str _, .bool _ | .str _, .num _ | .str _, .arr _ | .str _, .obj _
  | .arr _, .null | .arr _, .bool _ | .arr _, .num _ | .arr _, .str _ | .arr _, .obj _
  | .obj _, .null | .obj _, .bool _ | .obj _, .num _ | .obj _, .str _ | .obj _, .arr _ =>
    isFalse (by intro h; exact Json.noConfusion h)

def Json.decEqList : (a b : List Json) → Decidable (a = b)
  | [], [] => isTrue rfl
  | [], _ :: _ => isFalse (by intro h; exact List.noConfusion h)
  | _ :: _, [] => isFalse (by intro h; exact List.noConfusion h)
  | x :: xs, y :: ys =>
    match Json.decEq x y, Json.decEqList xs ys with
    | isTrue h1, isTrue h2 => isTrue (h1 ▸ h2 ▸ rfl)
    | isFalse h1, _ => isFalse (fun heq => h1 (List.cons.inj heq).1)
    | _, isFalse h2 => isFalse (fun heq => h2 (List.cons.inj heq).2)

def Json.decEqFields : (a b : List (String × Json)) → Decidable (a = b)
  | [], [] => isTrue rfl
  | [], _ :: _ => isFalse (by intro h; exact List.noConfusion h)
  | _ :: _, [] => isFalse (by intro h; exact List.noConfusion h)
  | (k1, v1) :: xs, (k2, v2) :: ys =>
    match String.decEq k1 k2, Json.decEq v1 v2, Json.decEqFields xs ys with
    | isTrue h0, isTrue h1, isTrue h2 => isTrue (h0 ▸ h1 ▸ h2 ▸ rfl)
    | isFalse h0, _, _ =>
      isFalse (fun heq => h0 (congrArg Prod.fst (List.cons.inj heq).1))
    | _, isFalse h1, _ =>
      isFalse (fun heq => h1 (congrArg Prod.snd (List.cons.inj heq).1))
    | _, _, isFalse h2 => isFalse (fun heq => h2 (List.cons.inj heq).2)

end

instance : DecidableEq Json := Json.decEq

/-- Value of the last binding of key `k` (JavaScript object semantics:
a later duplicate key in a JSON text overwrites an earlier one). -/
def lookupLast (fs : List (String × Json)) (k : String) : Option Json :=
  fs.foldl (fun acc kv => if kv.1 == k then some kv.2 else acc) none

/-- JavaScript property read `v.k`, as the runtime performs it: a `TypeError`
is thrown when `v` is `null`; a missing property, or a property read on a
primitive or an array (for the non-index keys used by this code), yields
`undefined`, modelled as `none`. -/
def Json.getProp : Json → String → Except String (Option Json)
  | .null, _ => .error "Cannot read properties of null"
  | .obj fs, k => .ok (lookupLast fs k)
  | _, _ => .ok none

/-- JavaScript truthiness of a JSON value. -/
def Json.truthy : Json → Bool
  | .null => false
  | .bool b => b
  | .num n => n != 0
  | .str s => s ≠ ""
  | .arr _ => true
  | .obj _ => true

/-- Truthiness of a possibly-`undefined` value (`undefined` is falsy). -/
def truthyOpt : Option Json → Bool
  | none => false
  | some j => j.truthy

/-- Property read on a value known not to be `null`: the total counterpart
of `Json.getProp` (missing property, primitive or array receiver give
`undefined`). -/
def propOf (j : Json) (k : String) : Option Json :=
  match j with
  | .obj fs => lookupLast fs k
  | _ => none

/-- `Array.isArray(v)` on a possibly-`undefined` value. -/
def isArrayOpt : Option Json → Bool
  | some (.arr _) => true
  | _ => false

/-- `a || b` on a possibly-`undefined` left operand, as in
`timeRange = body.timeRange || '30d'` (api.ts line 82). -/
def jsOr (a : Option Json) (b : Json) : Json :=
  match a with
  | some j => if j.truthy then j else b
  | none => b

/-- `typeof v === 'object'` (true for objects, arrays and `null`). -/
def jsTypeofObject : Json → Bool
  | .obj _ => true
  | .arr _ => true
  | .null => true
  | _ => false

/-- `Object.keys(v).length === 0` for the values `typeof v === 'object'`
admits here (api.ts line 172); on an object it asks whether the field list
is empty, on an array whether there are no elements. -/
def jsKeysEmpty : Json → Bool
  | .obj fs => fs.isEmpty
  | .arr xs => xs.isEmpty
  | _ => true

/-! ## Time-range resolution (api.ts lines 102-119)

The `switch (timeRange)` statement.  At runtime `timeRange` is whatever
JSON value survived validation (a string for every reachable call), so the
switch is modelled on `Json` with string cases; `case '30d'` and `default`
share the same arm, exactly as in the source. -/

/-- `fromTimestamp` computed by the `switch` in api.ts lines 105-119. -/
def resolveFromTs (timeRange : Json) (now : Int) : Int :=
  match timeRange with
  | .str "7d" => now - 7 * 24 * 60 * 60 * 1000
  | .str "3m" => now - 90 * 24 * 60 * 60 * 1000
  | .str "1y" => now - 365 * 24 * 60 * 60 * 1000
  | _ => now - 30 * 24 * 60 * 60 * 1000

/-- The resolved `(from, to)` window: `from = fromTimestamp`, `to = now`
(api.ts lines 126-127 pass `from: fromTimestamp, to: now`). -/
def resolveWindow (timeRange : Json) (now : Int) : Int × Int :=
  (resolveFromTs timeRange now, now)

/-! ## Request-body validation (api.ts lines 74-100) -/

/-- An inbound POST body: either a text that fails `JSON.parse` (carrying the
engine's parse-error message) or a parsed JSON value. -/
inductive ReqBody where
  | parseFail (msg : String)
  | parsed (j : Json)

/-- The validated request data extracted by the `try` block. -/
structure ValidatedReq where
  endpoint : String
  params : Option Json
  timeRange : Json
deriving DecidableEq

/-- `['7d', '30d', '3m', '1y'].includes(timeRange)` (api.ts line 90);
`includes` uses strict equality, so a non-string never matches. -/
def isTimeRangeString (j : Json) : Bool :=
  j == .str "7d" || j == .str "30d" || j == .str "3m" || j == .str "1y"

/-- The body of the `try` block, api.ts lines 78-92: read `endpoint`,
`params`, `timeRange` (defaulted through `||`), then run the three checks
in source order, throwing the source's message strings. -/
def validateBody (body : ReqBody) : Except String ValidatedReq :=
  match body with
  | .parseFail msg => .error msg
  | .parsed j => do
    let endpoint ← j.getProp "endpoint"
    let params ← j.getProp "params"
    let timeRangeRaw ← j.getProp "timeRange"
    let timeRange := jsOr timeRangeRaw (.str "30d")
    if !(truthyOpt endpoint) then
      throw "Missing 'endpoint' in request body"
    else
      match endpoint with
      | some (.str s) =>
        if timeRange.truthy && !(isTimeRangeString timeRange) then
          throw "Invalid 'timeRange' value"
        else
          .ok ⟨s, params, timeRange⟩
      | _ => throw "'endpoint' must be a string"

/-- An HTTP response produced by the proxy, with its JSON body. -/
structure Resp where
  status : Nat
  body : Json
deriving DecidableEq

/-- The validation phase of the handler: a thrown error becomes the 400
response of api.ts lines 94-100, whose body is
`{ error: "Invalid request body: " + message }`. -/
def handleBody (body : ReqBody) : Except Resp ValidatedReq :=
  match validateBody body with
  | .ok v => .ok v
  | .error msg =>
    .error ⟨400, .obj [("error", .str ("Invalid request body: " ++ msg))]⟩

/-! ## Bandwidth response normalization (api.ts lines 160-188) -/

/-- `{ data: [] }`. -/
def emptyEnvelope : Json := .obj [("data", .arr [])]

/-- The response-shaping logic after a 2xx upstream reply, api.ts lines
166-188, inside the surrounding `try`: any thrown `TypeError` (property
access on a `null` body) escapes to the `catch` modelled in
`handleUpstreamJson`. -/
def normalizeBody (endpoint : String) (jsonData : Json) : Except String Json := do
  if endpoint = "/bandwidth" then
    let dataField ← jsonData.getProp "data"
    -- `if (!jsonData.data || !Array.isArray(jsonData.data))`
    if !(truthyOpt dataField) || !(isArrayOpt dataField) then
      let s ← jsonData.getProp "start"
      let e ← jsonData.getProp "end"
      let sb ← jsonData.getProp "siteBandwidth"
      -- `if (jsonData.start && jsonData.end && jsonData.siteBandwidth !== undefined)`
      if truthyOpt s && truthyOpt e && sb.isSome then
        .ok (.obj [("data", .arr [jsonData])])
      else
        -- the two remaining arms (empty object / any other shape) both
        -- return `{ data: [] }`, kept separate as in the source
        if jsTypeofObject jsonData && jsKeysEmpty jsonData then
          .ok emptyEnvelope
        else
          .ok emptyEnvelope
    else
      -- a `data` array (length zero included) falls through unchanged
      .ok jsonData
  else
    .ok jsonData

/-- The handler's treatment of a parsed 2xx upstream body: the normalized
value is returned with status 200; a thrown `TypeError` reaches the `catch`
of api.ts lines 190-197, which answers 500 with a generic message. -/
def handleUpstreamJson (endpoint : String) (jsonData : Json) : Resp :=
  match normalizeBody endpoint jsonData with
  | .ok j => ⟨200, j⟩
  | .error _ =>
    ⟨500, .obj [("error", .str "Internal server error while contacting Netlify API.")]⟩

/-! ## Query building and serialization (api.ts lines 125-134)

`queryParams` is the object literal `{ from, to, timezone, ...params }`:
JavaScript spread semantics overwrite an existing key in place and append a
new key.  `queryString` maps every entry through `encodeURIComponent` and
joins with `&`. -/

/-- A query-parameter value (`string | number`). -/
inductive QVal where
  | str (s : String)
  | num (n : Int)
deriving DecidableEq

/-- The string `encodeURIComponent` receives: a string value itself, a
number via JavaScript number-to-string conversion (all numbers here are
integers). -/
def QVal.toJSString : QVal → String
  | .str s => s
  | .num n => toString n

/-- Assign a key in an object under construction: JavaScript object spread
overwrites an existing key in place and appends a fresh key. -/
def setKey (m : List (String × QVal)) (k : String) (v : QVal) : List (String × QVal) :=
  if m.any (fun p => p.1 == k) then
    m.map (fun p => if p.1 == k then (k, v) else p)
  else
    m ++ [(k, v)]

/-- The object literal `{ from: fromTimestamp, to: now, timezone, ...params }`
(api.ts lines 125-130): the three reserved keys first, then every extra
parameter assigned in order (so a clashing extra overwrites, last write
wins). -/
def buildQueryParams (fromTs toTs : Int) (timezone : String)
    (extras : List (String × QVal)) : List (String × QVal) :=
  extras.foldl (fun m kv => setKey m kv.1 kv.2)
    [("from", QVal.num fromTs), ("to", QVal.num toTs), ("timezone", QVal.str timezone)]

/-- UTF-8 encoding of one scalar value, as `encodeURIComponent` performs it
before percent-encoding. -/
def utf8Bytes (c : Char) : List Nat :=
  let n := c.toNat
  if n < 128 then [n]
  else if n < 2048 then [192 + n / 64, 128 + n % 64]
  else if n < 65536 then [224 + n / 4096, 128 + n / 64 % 64, 128 + n % 64]
  else [240 + n / 262144, 128 + n / 4096 % 64, 128 + n / 64 % 64, 128 + n % 64]

/-- Upper-case hexadecimal digit (0-9, A-F), as `encodeURIComponent` emits. -/
def hexDigitChar (n : Nat) : Char :=
  if n < 10 then Char.ofNat (48 + n) else Char.ofNat (55 + n)

/-- `%XX` for one byte. -/
def percentByte (b : Nat) : String :=
  ⟨['%', hexDigitChar (b / 16), hexDigitChar (b % 16)]⟩

/-- The characters `encodeURIComponent` leaves unescaped:
`A-Z a-z 0-9 - _ . ! ~ * ' ( )` (the apostrophe is code point 39). -/
def isUnreservedChar (c : Char) : Bool :=
  (65 ≤ c.toNat && c.toNat ≤ 90) || (97 ≤ c.toNat && c.toNat ≤ 122) ||
  (48 ≤ c.toNat && c.toNat ≤ 57) ||
  c == '-' || c == '_' || c == '.' || c == '!' || c == '~' || c == '*' ||
  c.toNat == 39 || c == '(' || c == ')'

/-- `encodeURIComponent` on one character. -/
def encodeChar (c : Char) : String :=
  if isUnreservedChar c then String.singleton c
  else String.join ((utf8Bytes c).map percentByte)

/-- `encodeURIComponent` (api.ts line 133 applies it to every key and
value). -/
def encodeURIComponent (s : String) : String :=
  String.join (s.data.map encodeChar)

/-- `Object.entries(queryParams).map(([k, v]) => enc(k) + '=' + enc(v)).join('&')`
(api.ts lines 132-134). -/
def queryString (ps : List (String × QVal)) : String :=
  String.intercalate "&"
    (ps.map (fun kv => encodeURIComponent kv.1 ++ "=" ++ encodeURIComponent kv.2.toJSString))

/-- Property lookup in a built query object (unique keys, first match). -/
def mapLookup (m : List (String × QVal)) (k : String) : Option QVal :=
  (m.find? (fun p => p.1 == k)).map Prod.snd

/-- The value of the LAST binding of `k` in an entry list (what a sequence
of JavaScript assignments leaves behind). -/
def lastValue (l : List (String × QVal)) (k : String) : Option QVal :=
  l.foldl (fun acc kv => if kv.1 == k then some kv.2 else acc) none

/-- Whether an entry list binds the key `k`. -/
def containsKey (m : List (String × QVal)) (k : String) : Bool :=
  m.any (fun p => p.1 == k)

/-! ## Client gateway (netlifyApi.ts lines 47-123) -/

/-- What calling the proxy can come back with, from `fetchNetlifyData`'s
point of view: the `fetch` promise rejects (network error); a non-2xx
response whose body either parses as JSON or does not; or a 2xx response
whose body either parses as JSON or does not. -/
inductive ProxyOutcome where
  | networkError
  | httpError (status : Nat) (body : Option Json)
  | httpOk (body : Option Json)
deriving DecidableEq

/-- The `try` block of `fetchNetlifyData` (netlifyApi.ts lines 56-100);
`Except.error` marks a thrown exception that reaches the outer `catch`:
the rejected `fetch` itself, the second body read in the non-2xx non-JSON
branch (the stream is already consumed, so `response.text()` throws), and
a 2xx body that fails `response.json()`. -/
def fetchAttempt : ProxyOutcome → Except Unit Json
  | .networkError => .error ()
  | .httpError _ (some _) => .ok emptyEnvelope
  | .httpError _ none => .error ()
  | .httpOk none => .error ()
  | .httpOk (some j) =>
    -- `typeof jsonData !== 'object' || jsonData === null || !jsonData.hasOwnProperty('data')`
    if !(jsTypeofObject j) || j == Json.null ||
        !(match j with | .obj fs => fs.any (fun kv => kv.1 == "data") | _ => false) then
      .ok emptyEnvelope
    else
      .ok j

/-- `fetchNetlifyData` (netlifyApi.ts lines 47-107): the outer `catch`
converts every thrown exception into `{ data: [] }`, so the operation
always resolves. -/
def fetchNetlifyData (endpoint : String) (params : Option (List (String × QVal)))
    (timeRange : String) (o : ProxyOutcome) : Json :=
  match endpoint, params, timeRange, fetchAttempt o with
  | _, _, _, .ok j => j
  | _, _, _, .error _ => emptyEnvelope

/-- `getPageViews` (netlifyApi.ts line 110). -/
def getPageViews (timeRange : String) (o : ProxyOutcome) : Json :=
  fetchNetlifyData "/pageviews" none timeRange o

/-- `getVisitors` (netlifyApi.ts line 112). -/
def getVisitors (timeRange : String) (o : ProxyOutcome) : Json :=
  fetchNetlifyData "/visitors" none timeRange o

/-- `getCountries` (netlifyApi.ts line 114). -/
def getCountries (timeRange : String) (o : ProxyOutcome) : Json :=
  fetchNetlifyData "/ranking/countries" none timeRange o

/-- `getBandwidth` (netlifyApi.ts line 116). -/
def getBandwidth (timeRange : String) (o : ProxyOutcome) : Json :=
  fetchNetlifyData "/bandwidth" none timeRange o

/-- `getSources` (netlifyApi.ts line 118, `limit` 10). -/
def getSources (timeRange : String) (o : ProxyOutcome) : Json :=
  fetchNetlifyData "/ranking/sources" (some [("limit", QVal.num 10)]) timeRange o

/-- `getPages` (netlifyApi.ts line 120, `limit` 15). -/
def getPages (timeRange : String) (o : ProxyOutcome) : Json :=
  fetchNetlifyData "/ranking/pages" (some [("limit", QVal.num 15)]) timeRange o

/-- `getNotFound` (netlifyApi.ts line 122, `limit` 15). -/
def getNotFound (timeRange : String) (o : ProxyOutcome) : Json :=
  fetchNetlifyData "/ranking/not_found" (some [("limit", QVal.num 15)]) timeRange o

/-- The outcomes the specification calls failures: a network error, any
non-2xx response, a 2xx body that is not JSON, is not an object, or lacks
an own `data` property. -/
def outcomeFails : ProxyOutcome → Bool
  | .networkError => true
  | .httpError _ _ => true
  | .httpOk none => true
  | .httpOk (some j) =>
    !(jsTypeofObject j) || j == Json.null ||
      !(match j with | .obj fs => fs.any (fun kv => kv.1 == "data") | _ => false)

/-! ## CSV export (netlifyApi.ts lines 126-246) -/

/-- Is the value JSON `null`? -/
def Json.isNull : Json → Bool
  | .null => true
  | _ => false

mutual

/-- JavaScript `String(v)` on a JSON value: strings unchanged, numbers via
number-to-string, booleans `true`/`false`, `null` the word `null`, arrays
joined with commas (a `null` element joins as the empty string), plain
objects `[object Object]`. -/
def jsToString : Json → String
  | .null => "null"
  | .bool b => cond b "true" "false"
  | .num n => toString n
  | .str s => s
  | .obj _ => "[object Object]"
  | .arr xs => String.intercalate "," (jsArrElems xs)

/-- The element strings of `Array.prototype.join`: `null` (and `undefined`)
elements contribute the empty string. -/
def jsArrElems : List Json → List String
  | [] => []
  | x :: xs => (if x.isNull then "" else jsToString x) :: jsArrElems xs

end

/-- `String(value ?? '')` (netlifyApi.ts line 227): `undefined` (a missing
column) and `null` become the empty string, anything else its JavaScript
string form. -/
def fieldString : Option Json → String
  | none => ""
  | some .null => ""
  | some j => jsToString j

/-- `stringValue.replace(/"/g, '""')` (netlifyApi.ts line 230): every
double quote is doubled. -/
def dqChars : List Char → List Char
  | [] => []
  | c :: cs => if c == '"' then '"' :: '"' :: dqChars cs else c :: dqChars cs

/-- One serialized CSV field (netlifyApi.ts lines 226-231): quote-double,
then wrap in double quotes exactly when the string value contains a comma
or a double quote. -/
def escapeField (v : Option Json) : String :=
  let stringValue := fieldString v
  let needsQuotes := stringValue.data.any (fun c => c == ',' || c == '"')
  let escapedValue : String := ⟨dqChars stringValue.data⟩
  if needsQuotes then "\"" ++ escapedValue ++ "\"" else escapedValue

/-- One row of the object-array CSV path (netlifyApi.ts lines 222-233):
a non-object row serializes to the empty string; an array row has no
string-keyed columns, so every selected column reads `undefined`; an
object row serializes each selected column through `escapeField`. -/
def csvRow (headersOrder : List String) (row : Json) : String :=
  match row with
  | .obj fs => String.intercalate "," (headersOrder.map fun h => escapeField (lookupLast fs h))
  | .arr _ => String.intercalate "," (headersOrder.map fun _ => escapeField none)
  | _ => ""

/-- The unit ladder of `formatBytes` (netlifyApi.ts line 130). -/
def sizes : List String := ["Bytes", "KB", "MB", "GB", "TB", "PB", "EB", "ZB", "YB"]

/-- JavaScript rendering of the number `parseFloat(x.toFixed(2))` for
`x = k / 100`: two decimals with trailing zeros (and a trailing dot)
dropped, as number-to-string conversion prints it. -/
def renderHundredths (k : Int) : String :=
  let intPart := k / 100
  let frac := k % 100
  if frac == 0 then toString intPart
  else if frac % 10 == 0 then toString intPart ++ "." ++ toString (frac / 10)
  else if frac < 10 then toString intPart ++ ".0" ++ toString frac
  else toString intPart ++ "." ++ toString frac

/-- `formatBytes` of netlifyApi.ts lines 126-133, on an integer byte count
or `undefined` (`none`, a missing record field).
`bytes === 0` short-circuits to `"0 Bytes"`.  For a positive count the
source computes `i = Math.floor(Math.log(bytes) / Math.log(1024))`, which
for an integer is the integer logarithm `Nat.log 1024`, divides by
`1024 ^ i`, rounds to two decimals with `toFixed` (`⌊x·100 + 1/2⌋ / 100`
for these magnitudes) and strips trailing zeros through `parseFloat`.
For `undefined` the source has no guard: `Math.log(undefined)` is `NaN`,
the index and quotient propagate `NaN`, `NaN.toFixed(2)` is `"NaN"`,
`parseFloat("NaN")` is `NaN`, `sizes[NaN]` is `undefined`, and the final
concatenation renders `"NaN undefined"`; a negative count takes the same
`NaN` route through `Math.log` of a negative number. -/
def formatBytes (bytes : Option Int) : String :=
  if bytes == some 0 then "0 Bytes"
  else
    match bytes with
    | some b =>
      if 0 < b then
        let i := Nat.log 1024 b.toNat
        let q : ℚ := (b : ℚ) / ((1024 : ℚ) ^ i)
        renderHundredths (Int.floor (q * 100 + 1 / 2)) ++ " " ++ sizes.getD i "undefined"
      else "NaN undefined"
    | none => "NaN undefined"

/-- A numeric field value, `undefined` when absent.  Bandwidth records
carry integer byte counts and timestamps; a non-numeric field value (which
a bandwidth record never has) is outside the model's scope and treated as
absent. -/
def numField : Option Json → Option Int
  | some (.num n) => some n
  | _ => none

/-- `item.start ? new Date(item.start).toLocaleString() : 'N/A'`
(netlifyApi.ts lines 176-177): zero or absent is falsy, hence `N/A`; the
locale rendering of a timestamp is environment-dependent and passed in as
`locale`. -/
def startEndField (locale : Int → String) (v : Option Json) : String :=
  match v with
  | some (.num n) => if n == 0 then "N/A" else locale n
  | _ => "N/A"

/-- The per-item mapping of the bandwidth branch (netlifyApi.ts lines
173-178). -/
def bandwidthMapItem (locale : Int → String) (item : Json) : Json :=
  .obj [("siteBandwidth", .str (formatBytes (numField (propOf item "siteBandwidth")))),
        ("accountBandwidth", .str (formatBytes (numField (propOf item "accountBandwidth")))),
        ("start", .str (startEndField locale (propOf item "start"))),
        ("end", .str (startEndField locale (propOf item "end")))]

/-- `!firstItem || (typeof firstItem !== 'object' && !Array.isArray(firstItem))
|| Object.keys(firstItem).length === 0` (netlifyApi.ts line 160). -/
def firstItemInvalid : Json → Bool
  | .null => true
  | .bool _ => true
  | .num _ => true
  | .str _ => true
  | .arr xs => xs.isEmpty
  | .obj fs => fs.isEmpty

/-- What `exportToCsv` produces: an abort (an error toast, no download), the
special pageviews/visitors serialization, or an object-array table of a
header list and one serialized string per row. -/
inductive ExportOutcome where
  | aborted
  | timeSeries (content : String)
  | table (headers : List String) (rows : List String)

/-- The envelope unwrapping of netlifyApi.ts lines 143-150: a one-element
array whose element carries a `data` array is replaced by that array (the
`else if` branch reads `data.data` on the input array itself, which an
array never has, so it never fires). -/
def exportUnwrap (data : List Json) : List Json :=
  match data with
  | [d] =>
    match d with
    | .obj fs =>
      match lookupLast fs "data" with
      | some (.arr xs) => xs
      | _ => [d]
    | _ => [d]
  | _ => data

/-- `Object.keys(firstItem)` for the fallback branch (netlifyApi.ts line
211): key insertion order, duplicates collapsed to the first position. -/
def objKeys : Json → List String
  | .obj fs => (fs.map Prod.fst).eraseDups
  | _ => []

/-- `Array.isArray(row) ? row.join(",") : ''` (netlifyApi.ts line 194). -/
def joinArrRow : Json → String
  | .arr xs => String.intercalate "," (jsArrElems xs)
  | _ => ""

/-- A plain (non-array) object. -/
def isObjNonArr : Json → Bool
  | .obj _ => true
  | _ => false

/-- `Array.isArray`. -/
def isArrJson : Json → Bool
  | .arr _ => true
  | _ => false

/-- `exportToCsv` (netlifyApi.ts lines 136-246) up to the produced CSV
text: the empty-input and invalid-first-item aborts, the envelope
unwrapping, the per-kind branch dispatch in source order, the
pageviews/visitors early-return path, and the object-array serialization.
The browser download and toast side effects are outside the model. -/
def exportToCsvModel (filename : String) (data : List Json)
    (locale : Int → String) : ExportOutcome :=
  if data.isEmpty then .aborted
  else
    let actualData := exportUnwrap data
    match actualData with
    | [] => .aborted
    | firstItem :: _ =>
      if firstItemInvalid firstItem then .aborted
      else
        if filename == "bandwidth" && (propOf firstItem "siteBandwidth").isSome then
          .table ["siteBandwidth", "accountBandwidth", "start", "end"]
            ((actualData.map (bandwidthMapItem locale)).map
              (csvRow ["siteBandwidth", "accountBandwidth", "start", "end"]))
        else if filename == "not_found" && (propOf firstItem "resource").isSome then
          .table ["resource", "count"] (actualData.map (csvRow ["resource", "count"]))
        else if filename == "countries" && (propOf firstItem "resource").isSome then
          let hs := if (propOf firstItem "country_name").isSome
            then ["resource", "country_name", "count"] else ["resource", "count"]
          .table hs (actualData.map (csvRow hs))
        else if filename == "sources" && (propOf firstItem "resource").isSome then
          .table ["resource", "count"] (actualData.map (csvRow ["resource", "count"]))
        else if filename == "pages" && (propOf firstItem "resource").isSome then
          .table ["resource", "count"] (actualData.map (csvRow ["resource", "count"]))
        else if (filename == "pageviews" || filename == "visitors") && isArrJson firstItem then
          .timeSeries ("Date,Count" ++ "\n" ++ String.intercalate "\n" (actualData.map joinArrRow))
        else if isObjNonArr firstItem then
          .table (objKeys firstItem) (actualData.map (csvRow (objKeys firstItem)))
        else .aborted

/-! ## A CSV row parser (the "unquote then split" reading of a row)

Used to state the round-trip property: a quoted field is read to its
closing quote with doubled quotes collapsed, an unquoted field to the next
comma. -/

/-- Read a quoted field body: a doubled quote contributes one quote, a
single quote closes the field; returns the field characters and the
remainder after the closing quote. -/
def parseQuoted : List Char → (List Char × List Char)
  | [] => ([], [])
  | '"' :: '"' :: rest =>
    let fr := parseQuoted rest
    ('"' :: fr.1, fr.2)
  | '"' :: rest => ([], rest)
  | c :: rest =>
    let fr := parseQuoted rest
    (c :: fr.1, fr.2)

/-- Read one field: quoted if it starts with a double quote, otherwise up
to the next comma; returns the field and the unconsumed remainder. -/
def parseField : List Char → (String × List Char)
  | '"' :: rest =>
    let fr := parseQuoted rest
    (⟨fr.1⟩, fr.2)
  | cs => (⟨cs.takeWhile (fun c => !(c == ','))⟩, cs.dropWhile (fun c => !(c == ',')))

/-- Split a row into its fields at top level. -/
def parseFields (cs : List Char) : List String :=
  let fr := parseField cs
  match h : fr.2 with
  | ',' :: rest => fr.1 :: parseFields rest
  | _ => [fr.1]
termination_by cs.length
decreasing_by
  have hdrop : ∀ (p : Char → Bool) (l : List Char), (l.dropWhile p).length ≤ l.length := by
    intro p l
    induction l with
    | nil => simp
    | cons c0 cs0 ih =>
      by_cases hp : p c0
      · rw [List.dropWhile_cons]
        simp only [hp, if_true, List.length_cons]
        omega
      · rw [List.dropWhile_cons]
        simp [hp]
  have hq : ∀ l : List Char, (parseQuoted l).2.length ≤ l.length := by
    intro l
    induction l using parseQuoted.induct <;> simp_all [parseQuoted] <;> omega
  have h1 : (parseField cs).2.length ≤ cs.length := by
    rw [parseField.eq_def]
    split
    · rename_i rest2
      have := hq rest2
      simp
      omega
    · have := hdrop (fun c => !(c == ',')) cs
      simpa using this
  rw [h] at h1
  simp at h1
  omega

/-- Parse one CSV row. -/
def parseRow (s : String) : List String := parseFields s.data

/-! # Theorems

Shared helper lemmas first, then one theorem per claim (with its witness
or counterexample where required). -/

lemma getProp_eq_propOf (j : Json) (k : String) (h : j ≠ .null) :
    j.getProp k = .ok (propOf j k) := by
  cases j <;> simp [Json.getProp, propOf] at h ⊢

lemma dataCond_true (j : Json) (hd : isArrayOpt (propOf j "data") = false) :
    (!(truthyOpt (propOf j "data")) || !(isArrayOpt (propOf j "data"))) = true := by
  simp [hd]

lemma dataCond_false (j : Json) (hd : isArrayOpt (propOf j "data") = true) :
    (!(truthyOpt (propOf j "data")) || !(isArrayOpt (propOf j "data"))) = false := by
  rcases h : propOf j "data" with _ | jv
  · rw [h] at hd
    simp [isArrayOpt] at hd
  · rw [h] at hd
    cases jv <;> simp_all [isArrayOpt, truthyOpt, Json.truthy]

lemma normalize_other (endpoint : String) (j : Json) (h : endpoint ≠ "/bandwidth") :
    handleUpstreamJson endpoint j = ⟨200, j⟩ := by
  simp [handleUpstreamJson, normalizeBody, h]

lemma normalize_passthrough (j : Json) (hn : j ≠ .null)
    (hd : isArrayOpt (propOf j "data") = true) :
    handleUpstreamJson "/bandwidth" j = ⟨200, j⟩ := by
  simp only [handleUpstreamJson, normalizeBody, if_pos rfl, getProp_eq_propOf _ _ hn,
    Bind.bind, Except.bind, dataCond_false _ hd]
  rfl

lemma normalize_wrap (j : Json) (hn : j ≠ .null)
    (hd : isArrayOpt (propOf j "data") = false)
    (hrec : (truthyOpt (propOf j "start") && truthyOpt (propOf j "end")
              && (propOf j "siteBandwidth").isSome) = true) :
    handleUpstreamJson "/bandwidth" j = ⟨200, .obj [("data", .arr [j])]⟩ := by
  simp only [handleUpstreamJson, normalizeBody, if_pos rfl, getProp_eq_propOf _ _ hn,
    Bind.bind, Except.bind, dataCond_true _ hd, hrec]
  rfl

lemma normalize_empty (j : Json) (hn : j ≠ .null)
    (hd : isArrayOpt (propOf j "data") = false)
    (hrec : (truthyOpt (propOf j "start") && truthyOpt (propOf j "end")
              && (propOf j "siteBandwidth").isSome) = false) :
    handleUpstreamJson "/bandwidth" j = ⟨200, emptyEnvelope⟩ := by
  simp only [handleUpstreamJson, normalizeBody, if_pos rfl, getProp_eq_propOf _ _ hn,
    Bind.bind, Except.bind, dataCond_true _ hd, hrec]
  simp

lemma handleBody_error (b : ReqBody) (msg : String) (h : validateBody b = .error msg) :
    handleBody b = .error ⟨400, .obj [("error", .str ("Invalid request body: " ++ msg))]⟩ := by
  simp [handleBody, h]

lemma validateBody_error_nonstring (fs : List (String × Json)) (v : Json)
    (hv : lookupLast fs "endpoint" = some v) (hns : ∀ s, v ≠ .str s) :
    ∃ msg, validateBody (.parsed (.obj fs)) = .error msg := by
  simp only [validateBody, Json.getProp, hv, Bind.bind, Except.bind]
  by_cases ht : v.truthy
  · cases v <;> simp_all [truthyOpt] <;> exact ⟨_, rfl⟩
  · simp [truthyOpt, ht]
    exact ⟨_, rfl⟩

lemma validateBody_error_badTimeRange (fs : List (String × Json)) (v : Json)
    (hv : lookupLast fs "timeRange" = some v)
    (ht : v.truthy = true) (hns : isTimeRangeString v = false) :
    ∃ msg, validateBody (.parsed (.obj fs)) = .error msg := by
  simp only [validateBody, Json.getProp, hv, Bind.bind, Except.bind, jsOr, ht, if_true]
  rcases he : lookupLast fs "endpoint" with _ | ev
  · simp [truthyOpt]
    exact ⟨_, rfl⟩
  · by_cases het : ev.truthy
    · cases ev <;> simp_all [truthyOpt, hns] <;> exact ⟨_, rfl⟩
    · simp [truthyOpt, het]
      exact ⟨_, rfl⟩

/-- C1 (counterexample): the claim states that on the bandwidth endpoint an
upstream value whose `data` field is absent falls under rule (b) and is
answered with `{ data: [] }`; the upstream JSON value `null` (its `data`
field is certainly absent) is instead answered with a 500 response, because
`jsonData.data` throws a `TypeError` on `null` and the surrounding `catch`
takes over. -/
theorem c1_normalizer_null_counterexample :
    handleUpstreamJson "/bandwidth" Json.null ≠
      ⟨200, Json.obj [("data", Json.arr [])]⟩ ∧
    (handleUpstreamJson "/bandwidth" Json.null).status = 500 := by
  exact ⟨by decide, rfl⟩

/-- C1 (amended): for every parsed upstream JSON value other than `null`,
on the bandwidth endpoint: when the `data` field is absent or not an array,
a record-looking value (truthy `start` and `end`, a defined
`siteBandwidth`) is wrapped as `{ data: [rawObject] }` and anything else
gets `{ data: [] }`; a `data` array (also of length zero) passes through
unchanged; every endpoint other than `/bandwidth` passes the value through
unchanged. -/
theorem c1_normalizer_amended (j : Json) (hn : j ≠ Json.null) :
    (∀ endpoint : String, endpoint ≠ "/bandwidth" →
      handleUpstreamJson endpoint j = ⟨200, j⟩) ∧
    (isArrayOpt (propOf j "data") = true → handleUpstreamJson "/bandwidth" j = ⟨200, j⟩) ∧
    (isArrayOpt (propOf j "data") = false →
      ((truthyOpt (propOf j "start") && truthyOpt (propOf j "end")
          && (propOf j "siteBandwidth").isSome) = true →
        handleUpstreamJson "/bandwidth" j = ⟨200, Json.obj [("data", Json.arr [j])]⟩) ∧
      ((truthyOpt (propOf j "start") && truthyOpt (propOf j "end")
          && (propOf j "siteBandwidth").isSome) = false →
        handleUpstreamJson "/bandwidth" j = ⟨200, emptyEnvelope⟩)) :=
  ⟨fun ep h => normalize_other ep j h,
    fun hd => normalize_passthrough j hn hd,
    fun hd => ⟨fun hrec => normalize_wrap j hn hd hrec,
      fun hrec => normalize_empty j hn hd hrec⟩⟩

/-- Witness for C1 (amended): a bare bandwidth record is wrapped. -/
theorem c1_normalizer_amended_witness :
    handleUpstreamJson "/bandwidth"
        (Json.obj [("start", Json.num 1), ("end", Json.num 2),
          ("siteBandwidth", Json.num 5)]) =
      ⟨200, Json.obj [("data", Json.arr
        [Json.obj [("start", Json.num 1), ("end", Json.num 2),
          ("siteBandwidth", Json.num 5)]])]⟩ :=
  ((c1_normalizer_amended _ (by decide)).2.2 (by decide)).1 (by decide)

/-- C2: for every reference instant `now` and each of the four symbolic
time ranges, the resolved window has `to = now`, `to - from` equal to the
documented millisecond offset (7d 604800000, 30d 2592000000, 3m
7776000000, 1y 31536000000), and `from < to`. -/
theorem c2_time_range_offsets (now : Int) :
    ((resolveWindow (Json.str "7d") now).2 = now ∧
      (resolveWindow (Json.str "7d") now).2 - (resolveWindow (Json.str "7d") now).1
        = 604800000 ∧
      (resolveWindow (Json.str "7d") now).1 < (resolveWindow (Json.str "7d") now).2) ∧
    ((resolveWindow (Json.str "30d") now).2 = now ∧
      (resolveWindow (Json.str "30d") now).2 - (resolveWindow (Json.str "30d") now).1
        = 2592000000 ∧
      (resolveWindow (Json.str "30d") now).1 < (resolveWindow (Json.str "30d") now).2) ∧
    ((resolveWindow (Json.str "3m") now).2 = now ∧
      (resolveWindow (Json.str "3m") now).2 - (resolveWindow (Json.str "3m") now).1
        = 7776000000 ∧
      (resolveWindow (Json.str "3m") now).1 < (resolveWindow (Json.str "3m") now).2) ∧
    ((resolveWindow (Json.str "1y") now).2 = now ∧
      (resolveWindow (Json.str "1y") now).2 - (resolveWindow (Json.str "1y") now).1
        = 31536000000 ∧
      (resolveWindow (Json.str "1y") now).1 < (resolveWindow (Json.str "1y") now).2) := by
  have h7 : resolveWindow (Json.str "7d") now = (now - 604800000, now) := rfl
  have h30 : resolveWindow (Json.str "30d") now = (now - 2592000000, now) := rfl
  have h3 : resolveWindow (Json.str "3m") now = (now - 7776000000, now) := rfl
  have h1 : resolveWindow (Json.str "1y") now = (now - 31536000000, now) := rfl
  simp only [h7, h30, h3, h1]
  refine ⟨⟨trivial, by omega, by omega⟩, ⟨trivial, by omega, by omega⟩,
    ⟨trivial, by omega, by omega⟩, ⟨trivial, by omega, by omega⟩⟩

/-- C7: the time-range resolution is total (it is a Lean function); every
value other than the four recognized symbols resolves to the same window as
`30d`, and an absent value is defaulted by `||` to `'30d'` and so resolves
to the same window as well. -/
theorem c7_time_range_default (now : Int) :
    (∀ v : Json, v ≠ Json.str "7d" → v ≠ Json.str "30d" → v ≠ Json.str "3m" →
      v ≠ Json.str "1y" → resolveWindow v now = resolveWindow (Json.str "30d") now) ∧
    resolveWindow (jsOr none (Json.str "30d")) now = resolveWindow (Json.str "30d") now := by
  constructor
  · intro v h7 h30 h3 h1
    unfold resolveWindow resolveFromTs
    split <;> simp_all
  · rfl

/-- Witness for C7: the unrecognized symbol `bogus` resolves like `30d`. -/
theorem c7_time_range_default_witness :
    resolveWindow (Json.str "bogus") 0 = resolveWindow (Json.str "30d") 0 :=
  (c7_time_range_default 0).1 (Json.str "bogus") (by decide) (by decide) (by decide)
    (by decide)

/-- C6: with configuration present and a POST request, the validation phase
answers HTTP 400 with a message naming the failed check whenever the body
fails to parse as JSON, `endpoint` is missing or not a string, or a
supplied (present and truthy — a falsy value is replaced by the default
before the check) `timeRange` is not one of the four recognized symbols;
in particular the body `{}` and the body
`{endpoint: "/pageviews", timeRange: "bogus"}` both get 400. -/
theorem c6_proxy_validation_400 :
    (∀ msg : String, handleBody (.parseFail msg) =
        .error ⟨400, Json.obj [("error", Json.str ("Invalid request body: " ++ msg))]⟩) ∧
    (∀ fs : List (String × Json), lookupLast fs "endpoint" = none →
        handleBody (.parsed (.obj fs)) =
          .error ⟨400, Json.obj [("error",
            Json.str "Invalid request body: Missing 'endpoint' in request body")]⟩) ∧
    (∀ (fs : List (String × Json)) (v : Json), lookupLast fs "endpoint" = some v →
        (∀ s, v ≠ Json.str s) →
        ∃ r : Resp, handleBody (.parsed (.obj fs)) = .error r ∧ r.status = 400) ∧
    (∀ (fs : List (String × Json)) (v : Json), lookupLast fs "timeRange" = some v →
        v.truthy = true → isTimeRangeString v = false →
        ∃ r : Resp, handleBody (.parsed (.obj fs)) = .error r ∧ r.status = 400) ∧
    handleBody (.parsed (.obj [])) =
      .error ⟨400, Json.obj [("error",
        Json.str "Invalid request body: Missing 'endpoint' in request body")]⟩ ∧
    handleBody (.parsed (.obj [("endpoint", Json.str "/pageviews"),
        ("timeRange", Json.str "bogus")])) =
      .error ⟨400, Json.obj [("error",
        Json.str "Invalid request body: Invalid 'timeRange' value")]⟩ := by
  refine ⟨fun msg => rfl, ?_, ?_, ?_, rfl, rfl⟩
  · intro fs h
    simp [handleBody, validateBody, Json.getProp, h, truthyOpt, Bind.bind, Except.bind]
  · intro fs v hv hns
    obtain ⟨msg, hmsg⟩ := validateBody_error_nonstring fs v hv hns
    exact ⟨_, handleBody_error _ _ hmsg, rfl⟩
  · intro fs v hv ht hns
    obtain ⟨msg, hmsg⟩ := validateBody_error_badTimeRange fs v hv ht hns
    exact ⟨_, handleBody_error _ _ hmsg, rfl⟩

/-- Witness for C6: a numeric `endpoint` is rejected with status 400. -/
theorem c6_proxy_validation_400_witness :
    ∃ r : Resp, handleBody (.parsed (.obj [("endpoint", Json.num 5)])) = .error r ∧
      r.status = 400 :=
  c6_proxy_validation_400.2.2.1 [("endpoint", Json.num 5)] (Json.num 5) (by decide)
    (fun s h => Json.noConfusion h)

/-- C9: a body whose `endpoint` is present, of string type, and equal to
the empty string is rejected with HTTP 400 and the missing-endpoint message
(the emptiness check is a truthiness check, so the empty string counts as
missing), rather than being forwarded upstream. -/
theorem c9_empty_endpoint_400 (fs : List (String × Json))
    (h : lookupLast fs "endpoint" = some (Json.str "")) :
    handleBody (.parsed (.obj fs)) =
      .error ⟨400, Json.obj [("error",
        Json.str "Invalid request body: Missing 'endpoint' in request body")]⟩ := by
  simp [handleBody, validateBody, Json.getProp, h, truthyOpt, Json.truthy,
    Bind.bind, Except.bind]

/-- Witness for C9. -/
theorem c9_empty_endpoint_400_witness :
    handleBody (.parsed (.obj [("endpoint", Json.str "")])) =
      .error ⟨400, Json.obj [("error",
        Json.str "Invalid request body: Missing 'endpoint' in request body")]⟩ :=
  c9_empty_endpoint_400 [("endpoint", Json.str "")] (by decide)

/-- C10: a body whose `timeRange` is present but falsy (empty string, 0,
false, null) is not rejected: validation succeeds, the value is replaced by
the default `'30d'`, and the resolved window is the 30d window. -/
theorem c10_falsy_time_range_default (fs : List (String × Json)) (v : Json) (e : String)
    (hv : lookupLast fs "timeRange" = some v) (hf : v.truthy = false)
    (he : lookupLast fs "endpoint" = some (Json.str e)) (hne : e ≠ "") :
    handleBody (.parsed (.obj fs)) = .ok ⟨e, lookupLast fs "params", Json.str "30d"⟩ ∧
    (∀ now : Int, resolveWindow (Json.str "30d") now = (now - 2592000000, now)) := by
  constructor
  · have hv30 : jsOr (some v) (Json.str "30d") = Json.str "30d" := by
      simp [jsOr, hf]
    have het : truthyOpt (some (Json.str e)) = true := by
      simp [truthyOpt, Json.truthy, hne]
    simp [handleBody, validateBody, Json.getProp, hv, he, Bind.bind, Except.bind,
      hv30, het, Json.truthy, isTimeRangeString]
  · intro now
    rfl

/-- Witness for C10: `timeRange: ""` proceeds with the default. -/
theorem c10_falsy_time_range_default_witness :
    handleBody (.parsed (.obj [("endpoint", Json.str "/pageviews"),
        ("timeRange", Json.str "")])) =
      .ok ⟨"/pageviews", none, Json.str "30d"⟩ :=
  (c10_falsy_time_range_default
    [("endpoint", Json.str "/pageviews"), ("timeRange", Json.str "")]
    (Json.str "") "/pageviews" (by decide) (by decide) (by decide) (by decide)).1

/-- C5: every exported metric operation is a total function of the proxy
outcome (it always resolves); on every failing outcome — a network error, a
non-2xx response (JSON or non-JSON error body), a 2xx body that is not
JSON, not an object, or without an own `data` property — it resolves to
`{ data: [] }`, and on the one non-failing outcome it returns the body
unchanged. -/
theorem c5_gateway_never_rejects (timeRange : String) (o : ProxyOutcome) :
    (outcomeFails o = true →
      getPageViews timeRange o = emptyEnvelope ∧
      getVisitors timeRange o = emptyEnvelope ∧
      getCountries timeRange o = emptyEnvelope ∧
      getSources timeRange o = emptyEnvelope ∧
      getPages timeRange o = emptyEnvelope ∧
      getBandwidth timeRange o = emptyEnvelope ∧
      getNotFound timeRange o = emptyEnvelope) ∧
    (outcomeFails o = false → ∃ j : Json,
      o = ProxyOutcome.httpOk (some j) ∧
      getPageViews timeRange o = j ∧
      getVisitors timeRange o = j ∧
      getCountries timeRange o = j ∧
      getSources timeRange o = j ∧
      getPages timeRange o = j ∧
      getBandwidth timeRange o = j ∧
      getNotFound timeRange o = j) := by
  constructor
  · intro h
    rcases o with _ | ⟨st, b⟩ | b
    · exact ⟨rfl, rfl, rfl, rfl, rfl, rfl, rfl⟩
    · rcases b with _ | bj
      · exact ⟨rfl, rfl, rfl, rfl, rfl, rfl, rfl⟩
      · exact ⟨rfl, rfl, rfl, rfl, rfl, rfl, rfl⟩
    · rcases b with _ | bj
      · exact ⟨rfl, rfl, rfl, rfl, rfl, rfl, rfl⟩
      · simp only [outcomeFails] at h
        refine ⟨?_, ?_, ?_, ?_, ?_, ?_, ?_⟩ <;>
          simp [getPageViews, getVisitors, getCountries, getSources, getPages,
            getBandwidth, getNotFound, fetchNetlifyData, fetchAttempt, h]
  · intro h
    rcases o with _ | ⟨st, b⟩ | b
    · simp [outcomeFails] at h
    · rcases b with _ | bj <;> simp [outcomeFails] at h
    · rcases b with _ | bj
      · simp [outcomeFails] at h
      · simp only [outcomeFails] at h
        refine ⟨bj, rfl, ?_, ?_, ?_, ?_, ?_, ?_, ?_⟩ <;>
          simp [getPageViews, getVisitors, getCountries, getSources, getPages,
            getBandwidth, getNotFound, fetchNetlifyData, fetchAttempt, h]

/-- Witness for C5: a network error resolves to the empty envelope. -/
theorem c5_gateway_never_rejects_witness :
    outcomeFails ProxyOutcome.networkError = true ∧
    getPageViews "30d" ProxyOutcome.networkError = emptyEnvelope :=
  ⟨rfl, ((c5_gateway_never_rejects "30d" ProxyOutcome.networkError).1 rfl).1⟩

lemma char_toNat_lt (c : Char) : c.toNat < 1114112 := by
  show c.val.toNat < 1114112
  rcases c.valid with h | ⟨_, h⟩
  · have h2 : c.val.toNat < UInt32.toNat 0xd800 := by exact_mod_cast h
    have h3 : UInt32.toNat 0xd800 = 55296 := by decide
    omega
  · have h2 : c.val.toNat < UInt32.toNat 0x110000 := by exact_mod_cast h
    have h3 : UInt32.toNat 0x110000 = 1114112 := by decide
    omega

lemma utf8Bytes_lt (c : Char) : ∀ b ∈ utf8Bytes c, b < 256 := by
  intro b hb
  have hc := char_toNat_lt c
  simp only [utf8Bytes] at hb
  split at hb <;> (try split at hb) <;> (try split at hb) <;> simp_all <;> omega

lemma hexDigitChar_unreserved (n : Nat) (h : n < 16) :
    isUnreservedChar (hexDigitChar n) = true := by
  interval_cases n <;> decide

lemma mem_foldl_append_data (l : List String) :
    ∀ (acc : String) (c : Char), c ∈ (l.foldl (fun r s => r ++ s) acc).data →
      c ∈ acc.data ∨ ∃ s ∈ l, c ∈ s.data := by
  induction l with
  | nil => intro acc c h; exact Or.inl h
  | cons x xs ih =>
    intro acc c h
    rcases ih (acc ++ x) c h with h2 | ⟨s, hs, hc⟩
    · rw [String.data_append] at h2
      rcases List.mem_append.mp h2 with h3 | h3
      · exact Or.inl h3
      · exact Or.inr ⟨x, by simp, h3⟩
    · exact Or.inr ⟨s, by simp [hs], hc⟩

lemma mem_join_data (l : List String) (c : Char) (h : c ∈ (String.join l).data) :
    ∃ s ∈ l, c ∈ s.data := by
  rcases mem_foldl_append_data l "" c h with h2 | h2
  · simp at h2
  · exact h2

lemma encodeChar_safe (c : Char) :
    ∀ d ∈ (encodeChar c).data, isUnreservedChar d = true ∨ d = '%' := by
  intro d hd
  unfold encodeChar at hd
  split at hd
  · rename_i h
    simp [String.singleton] at hd
    subst hd
    exact Or.inl (by assumption)
  · obtain ⟨s, hs, hcs⟩ := mem_join_data _ _ hd
    obtain ⟨b, hb, rfl⟩ := List.mem_map.mp hs
    have hblt := utf8Bytes_lt c b hb
    have hl : d ∈ ['%', hexDigitChar (b / 16), hexDigitChar (b % 16)] := hcs
    simp only [List.mem_cons, List.not_mem_nil, or_false] at hl
    rcases hl with rfl | rfl | rfl
    · exact Or.inr rfl
    · exact Or.inl (hexDigitChar_unreserved _ (by omega))
    · exact Or.inl (hexDigitChar_unreserved _ (by omega))

lemma encodeURIComponent_safe (s : String) :
    ∀ d ∈ (encodeURIComponent s).data, isUnreservedChar d = true ∨ d = '%' := by
  intro d hd
  obtain ⟨t, ht, hct⟩ := mem_join_data _ _ hd
  obtain ⟨c, _, rfl⟩ := List.mem_map.mp ht
  exact encodeChar_safe c d hct

lemma mem_intercalate_go_data (sep : String) :
    ∀ (as : List String) (acc : String) (c : Char),
      c ∈ (String.intercalate.go acc sep as).data →
      c ∈ acc.data ∨ c ∈ sep.data ∨ ∃ s ∈ as, c ∈ s.data := by
  intro as
  induction as with
  | nil => intro acc c h; exact Or.inl h
  | cons x xs ih =>
    intro acc c h
    rw [String.intercalate.go] at h
    rcases ih (acc ++ sep ++ x) c h with h2 | h2 | ⟨s, hs, hc⟩
    · simp only [String.data_append, List.mem_append] at h2
      rcases h2 with (h3 | h3) | h3
      · exact Or.inl h3
      · exact Or.inr (Or.inl h3)
      · exact Or.inr (Or.inr ⟨x, by simp, h3⟩)
    · exact Or.inr (Or.inl h2)
    · exact Or.inr (Or.inr ⟨s, by simp [hs], hc⟩)

lemma mem_intercalate_data (sep : String) (l : List String) (c : Char)
    (h : c ∈ (String.intercalate sep l).data) :
    c ∈ sep.data ∨ ∃ s ∈ l, c ∈ s.data := by
  match l with
  | [] => simp [String.intercalate] at h
  | a :: as =>
    rw [String.intercalate] at h
    rcases mem_intercalate_go_data sep as a c h with h2 | h2 | ⟨s, hs, hc⟩
    · exact Or.inr ⟨a, by simp, h2⟩
    · exact Or.inl h2
    · exact Or.inr ⟨s, by simp [hs], hc⟩

lemma queryString_safe (ps : List (String × QVal)) :
    ∀ c ∈ (queryString ps).data,
      isUnreservedChar c = true ∨ c = '%' ∨ c = '&' ∨ c = '=' := by
  intro c hc
  rcases mem_intercalate_data _ _ _ hc with h | ⟨s, hs, hcs⟩
  · right; right; left
    have h2 : c ∈ ['&'] := h
    simpa using h2
  · obtain ⟨kv, _, rfl⟩ := List.mem_map.mp hs
    simp only [String.data_append, List.mem_append] at hcs
    rcases hcs with (h1 | h1) | h1
    · rcases encodeURIComponent_safe _ c h1 with h2 | h2
      · exact Or.inl h2
      · exact Or.inr (Or.inl h2)
    · right; right; right
      have h2 : c ∈ ['='] := h1
      simpa using h2
    · rcases encodeURIComponent_safe _ c h1 with h2 | h2
      · exact Or.inl h2
      · exact Or.inr (Or.inl h2)

lemma setKey_containsKey_mono (m : List (String × QVal)) (k k2 : String) (v : QVal)
    (h : containsKey m k2 = true) : containsKey (setKey m k v) k2 = true := by
  unfold containsKey setKey
  unfold containsKey at h
  rw [List.any_eq_true] at h
  obtain ⟨p, hp, hpk⟩ := h
  split
  · rw [List.any_eq_true]
    by_cases hk : p.1 == k
    · refine ⟨(k, v), List.mem_map.mpr ⟨p, hp, by simp [hk]⟩, ?_⟩
      simp only [beq_iff_eq] at hk hpk ⊢
      rw [← hk, hpk]
    · exact ⟨p, List.mem_map.mpr ⟨p, hp, by simp [hk]⟩, hpk⟩
  · rw [List.any_eq_true]
    exact ⟨p, by simp [hp], hpk⟩

lemma find_map_update (m : List (String × QVal)) (k : String) (v : QVal)
    (h : m.any (fun p => p.1 == k) = true) :
    ((m.map fun p => if p.1 == k then (k, v) else p).find? (fun p => p.1 == k))
      = some (k, v) := by
  induction m with
  | nil => simp at h
  | cons q m ih =>
    by_cases hq : (q.1 == k) = true
    · simp [List.find?, hq]
    · rw [List.any_cons] at h
      rw [Bool.or_eq_true] at h
      rcases h with h1 | h2
      · exact absurd h1 hq
      · rw [List.map_cons, if_neg hq, List.find?]
        rw [Bool.not_eq_true] at hq
        simp only [hq, Bool.false_eq_true]
        exact ih h2

lemma find_append_new (m : List (String × QVal)) (k : String) (v : QVal)
    (h : m.any (fun p => p.1 == k) = false) :
    ((m ++ [(k, v)]).find? (fun p => p.1 == k)) = some (k, v) := by
  induction m with
  | nil => simp [List.find?]
  | cons q m ih =>
    rw [List.any_cons, Bool.or_eq_false_iff] at h
    rw [List.cons_append, List.find?]
    simp only [h.1, Bool.false_eq_true]
    exact ih h.2

lemma setKey_lookup_self (m : List (String × QVal)) (k : String) (v : QVal) :
    mapLookup (setKey m k v) k = some v := by
  unfold mapLookup setKey
  split
  · rename_i h
    rw [find_map_update m k v h]
    rfl
  · rename_i h
    rw [Bool.not_eq_true] at h
    rw [find_append_new m k v h]
    rfl

lemma find_map_update_other (m : List (String × QVal)) (k k2 : String) (v : QVal)
    (hne : k2 ≠ k) :
    ((m.map fun p => if p.1 == k then (k, v) else p).find? (fun p => p.1 == k2)) =
      m.find? (fun p => p.1 == k2) := by
  have hk2 : (k == k2) = false := by
    rw [beq_eq_false_iff_ne]
    exact fun hh => hne hh.symm
  induction m with
  | nil => simp
  | cons q m ih =>
    by_cases hq : (q.1 == k) = true
    · have hq2 : (q.1 == k2) = false := by
        rw [beq_eq_false_iff_ne]
        rw [beq_iff_eq] at hq
        rw [hq]
        exact fun hh => hne hh.symm
      rw [List.map_cons, if_pos hq, List.find?, List.find?]
      simp only [hk2, hq2, Bool.false_eq_true]
      exact ih
    · rw [List.map_cons, if_neg hq, List.find?, List.find?]
      by_cases hq2 : (q.1 == k2) = true
      · simp [hq2]
      · rw [Bool.not_eq_true] at hq2
        simp only [hq2, Bool.false_eq_true]
        exact ih

lemma find_append_other (m : List (String × QVal)) (k k2 : String) (v : QVal)
    (hne : k2 ≠ k) :
    ((m ++ [(k, v)]).find? (fun p => p.1 == k2)) = m.find? (fun p => p.1 == k2) := by
  have hk2 : (k == k2) = false := by
    rw [beq_eq_false_iff_ne]
    exact fun hh => hne hh.symm
  induction m with
  | nil =>
    rw [List.nil_append, List.find?]
    simp [hk2, List.find?]
  | cons q m ih =>
    rw [List.cons_append, List.find?, List.find?]
    by_cases hq : (q.1 == k2) = true
    · simp [hq]
    · rw [Bool.not_eq_true] at hq
      simp only [hq, Bool.false_eq_true]
      exact ih

lemma setKey_lookup_other (m : List (String × QVal)) (k k2 : String) (v : QVal)
    (hne : k2 ≠ k) :
    mapLookup (setKey m k v) k2 = mapLookup m k2 := by
  unfold mapLookup setKey
  split
  · rw [find_map_update_other m k k2 v hne]
  · rw [find_append_other m k k2 v hne]

lemma lastValue_foldl_acc (k : String) :
    ∀ (l : List (String × QVal)) (acc : Option QVal),
      l.foldl (fun acc kv => if kv.1 == k then some kv.2 else acc) acc =
        match lastValue l k with
        | some v => some v
        | none => acc := by
  intro l
  induction l with
  | nil => intro acc; rfl
  | cons q l ih =>
    intro acc
    rw [List.foldl_cons, ih]
    have hcons : lastValue (q :: l) k =
        match lastValue l k with
        | some v => some v
        | none => if q.1 == k then some q.2 else none := by
      unfold lastValue
      rw [List.foldl_cons, ih]
      rfl
    rcases h : lastValue l k with _ | v
    · by_cases hq : (q.1 == k) = true
      · simp [hcons, h, hq]
      · rw [Bool.not_eq_true] at hq
        simp [hcons, h, hq]
    · simp [hcons, h]

lemma lastValue_cons (q : String × QVal) (l : List (String × QVal)) (k : String) :
    lastValue (q :: l) k =
      match lastValue l k with
      | some v => some v
      | none => if q.1 == k then some q.2 else none := by
  unfold lastValue
  rw [List.foldl_cons, lastValue_foldl_acc]
  rfl

lemma foldl_setKey_lookup (k : String) :
    ∀ (l : List (String × QVal)) (m : List (String × QVal)),
      mapLookup (l.foldl (fun m kv => setKey m kv.1 kv.2) m) k =
        match lastValue l k with
        | some v => some v
        | none => mapLookup m k := by
  intro l
  induction l with
  | nil => intro m; rfl
  | cons q l ih =>
    intro m
    rw [List.foldl_cons, ih, lastValue_cons]
    rcases h : lastValue l k with _ | v
    · by_cases hq : (q.1 == k) = true
      · rw [beq_iff_eq] at hq
        subst hq
        simp [setKey_lookup_self]
      · have hne : k ≠ q.1 := by
          rw [Bool.not_eq_true, beq_eq_false_iff_ne] at hq
          exact fun hh => hq hh.symm
        rw [Bool.not_eq_true] at hq
        simp only [hq, Bool.false_eq_true, if_false]
        rw [setKey_lookup_other m q.1 k q.2 hne]
    · simp

lemma containsKey_of_mapLookup (k : String) :
    ∀ (m : List (String × QVal)) (v : QVal),
      mapLookup m k = some v → containsKey m k = true := by
  intro m
  induction m with
  | nil => intro v h; cases h
  | cons q m ih =>
    intro v h
    unfold mapLookup at h
    rw [List.find?] at h
    unfold containsKey
    rw [List.any_cons, Bool.or_eq_true]
    by_cases hq : (q.1 == k) = true
    · exact Or.inl hq
    · rw [Bool.not_eq_true] at hq
      rw [hq] at h
      simp only [Bool.false_eq_true] at h
      exact Or.inr (ih v h)

lemma lastValue_of_containsKey (k : String) :
    ∀ l : List (String × QVal), containsKey l k = true → ∃ v, lastValue l k = some v := by
  intro l
  induction l with
  | nil => intro h; simp [containsKey] at h
  | cons q l ih =>
    intro h
    rw [lastValue_cons]
    rcases hl : lastValue l k with _ | v
    · unfold containsKey at h
      rw [List.any_cons, Bool.or_eq_true] at h
      rcases h with h1 | h2
      · exact ⟨q.2, by simp [h1]⟩
      · obtain ⟨v, hv⟩ := ih h2
        rw [hv] at hl
        cases hl
    · exact ⟨v, rfl⟩

lemma foldl_setKey_contains (k : String) :
    ∀ (l m : List (String × QVal)), containsKey m k = true →
      containsKey (l.foldl (fun m kv => setKey m kv.1 kv.2) m) k = true := by
  intro l
  induction l with
  | nil => intro m h; exact h
  | cons q l ih =>
    intro m h
    rw [List.foldl_cons]
    exact ih _ (setKey_containsKey_mono m q.1 k q.2 h)

/-- C3: the built query mapping contains the keys `from`, `to`, `timezone`
and every key of the extras mapping; extras are applied after the reserved
keys with last-write-wins (the last extras binding of a key is the final
value, and a key the extras do not bind keeps its reserved value); the
serialized query string maps every key and value through
`encodeURIComponent` joined with `&`, so every character of it is either an
unreserved character or one of `%`, `&`, `=` — every reserved character of
every key and value is percent-encoded. -/
theorem c3_query_builder (fromTs toTs : Int) (tz : String)
    (extras : List (String × QVal)) :
    containsKey (buildQueryParams fromTs toTs tz extras) "from" = true ∧
    containsKey (buildQueryParams fromTs toTs tz extras) "to" = true ∧
    containsKey (buildQueryParams fromTs toTs tz extras) "timezone" = true ∧
    (∀ k, containsKey extras k = true →
      containsKey (buildQueryParams fromTs toTs tz extras) k = true) ∧
    (∀ k v, lastValue extras k = some v →
      mapLookup (buildQueryParams fromTs toTs tz extras) k = some v) ∧
    (∀ k, lastValue extras k = none →
      mapLookup (buildQueryParams fromTs toTs tz extras) k =
        mapLookup [("from", QVal.num fromTs), ("to", QVal.num toTs),
          ("timezone", QVal.str tz)] k) ∧
    queryString (buildQueryParams fromTs toTs tz extras) =
      String.intercalate "&" ((buildQueryParams fromTs toTs tz extras).map
        (fun kv => encodeURIComponent kv.1 ++ "=" ++ encodeURIComponent kv.2.toJSString)) ∧
    (∀ c ∈ (queryString (buildQueryParams fromTs toTs tz extras)).data,
      isUnreservedChar c = true ∨ c = '%' ∨ c = '&' ∨ c = '=') := by
  refine ⟨?_, ?_, ?_, ?_, ?_, ?_, rfl, queryString_safe _⟩
  · exact foldl_setKey_contains _ extras _ rfl
  · exact foldl_setKey_contains _ extras _ rfl
  · exact foldl_setKey_contains _ extras _ rfl
  · intro k h
    obtain ⟨v, hv⟩ := lastValue_of_containsKey k extras h
    have h2 := foldl_setKey_lookup k extras
      [("from", QVal.num fromTs), ("to", QVal.num toTs), ("timezone", QVal.str tz)]
    rw [hv] at h2
    exact containsKey_of_mapLookup k _ v h2
  · intro k v hv
    have h2 := foldl_setKey_lookup k extras
      [("from", QVal.num fromTs), ("to", QVal.num toTs), ("timezone", QVal.str tz)]
    rw [hv] at h2
    exact h2
  · intro k hv
    have h2 := foldl_setKey_lookup k extras
      [("from", QVal.num fromTs), ("to", QVal.num toTs), ("timezone", QVal.str tz)]
    rw [hv] at h2
    exact h2

/-- Witness for C3: an extra named `from` overwrites the reserved value,
and the extra `limit` key is present. -/
theorem c3_query_builder_witness :
    mapLookup (buildQueryParams 1 2 "UTC"
        [("from", QVal.str "x"), ("limit", QVal.num 10)]) "from" = some (QVal.str "x") ∧
    containsKey (buildQueryParams 1 2 "UTC"
        [("from", QVal.str "x"), ("limit", QVal.num 10)]) "limit" = true :=
  ⟨(c3_query_builder 1 2 "UTC" [("from", QVal.str "x"), ("limit", QVal.num 10)]).2.2.2.2.1
      "from" (QVal.str "x") (by decide),
    (c3_query_builder 1 2 "UTC" [("from", QVal.str "x"), ("limit", QVal.num 10)]).2.2.2.1
      "limit" (by decide)⟩

lemma takeWhile_eq_self (p : Char → Bool) : ∀ l : List Char, (∀ c ∈ l, p c = true) →
    l.takeWhile p = l := by
  intro l h
  induction l with
  | nil => rfl
  | cons c cs ih =>
    rw [List.takeWhile_cons, h c (by simp)]
    simp [ih (fun d hd => h d (by simp [hd]))]

lemma dropWhile_eq_nil (p : Char → Bool) : ∀ l : List Char, (∀ c ∈ l, p c = true) →
    l.dropWhile p = [] := by
  intro l h
  induction l with
  | nil => rfl
  | cons c cs ih =>
    rw [List.dropWhile_cons, h c (by simp)]
    simp [ih (fun d hd => h d (by simp [hd]))]

lemma parseField_unquoted (cs : List Char) (h : ∀ c ∈ cs, c ≠ ',' ∧ c ≠ '"') :
    parseField cs = (⟨cs⟩, []) := by
  match cs with
  | [] => rfl
  | c :: rest =>
    rw [parseField.eq_def]
    have hc : c ≠ '"' := (h c (by simp)).2
    split
    · rename_i rest2 heq
      rw [List.cons.injEq] at heq
      exact absurd heq.1 hc
    · have hall : ∀ d ∈ c :: rest, (!(d == ',')) = true := by
        intro d hd
        simp [(h d hd).1]
      rw [takeWhile_eq_self _ _ hall, dropWhile_eq_nil _ _ hall]

lemma parseQuoted_cons_ne (c : Char) (h : c ≠ '"') (cs : List Char) :
    parseQuoted (c :: cs) = (c :: (parseQuoted cs).1, (parseQuoted cs).2) := by
  rw [parseQuoted.eq_def]
  split
  · simp_all
  · rename_i rest heq
    rw [List.cons.injEq] at heq
    exact absurd heq.1 h
  · rename_i rest heq
    rw [List.cons.injEq] at heq
    exact absurd heq.1 h
  · rename_i c2 rest heq
    rw [List.cons.injEq] at heq
    rw [heq.1, heq.2]

lemma parseQuoted_dq (l rest : List Char) :
    parseQuoted (dqChars l ++ '"' :: ',' :: rest) = (l, ',' :: rest) := by
  induction l with
  | nil => rfl
  | cons c cs ih =>
    by_cases h : c = '"'
    · subst h
      show parseQuoted ('"' :: '"' :: (dqChars cs ++ '"' :: ',' :: rest)) = _
      rw [parseQuoted]
      simp [ih]
    · have hb : (c == '"') = false := by simp [h]
      show parseQuoted ((if c == '"' then '"' :: '"' :: dqChars cs
          else c :: dqChars cs) ++ _) = _
      rw [hb]
      simp only [Bool.false_eq_true, if_false, List.cons_append]
      rw [parseQuoted_cons_ne c h]
      simp [ih]

lemma digitChar_safe (n : Nat) : Nat.digitChar n ≠ ',' ∧ Nat.digitChar n ≠ '"' := by
  rcases Nat.lt_or_ge n 16 with h | h
  · interval_cases n <;> exact ⟨by decide, by decide⟩
  · have h0 : Nat.digitChar n = Char.ofNat 42 := by
      unfold Nat.digitChar
      simp [show n ≠ 0 by omega, show n ≠ 1 by omega, show n ≠ 2 by omega,
        show n ≠ 3 by omega, show n ≠ 4 by omega, show n ≠ 5 by omega,
        show n ≠ 6 by omega, show n ≠ 7 by omega, show n ≠ 8 by omega,
        show n ≠ 9 by omega, show n ≠ 10 by omega, show n ≠ 11 by omega,
        show n ≠ 12 by omega, show n ≠ 13 by omega, show n ≠ 14 by omega,
        show n ≠ 15 by omega]
    rw [h0]
    exact ⟨by decide, by decide⟩

lemma toDigitsCore_safe (b fuel n : Nat) (acc : List Char)
    (hacc : ∀ c ∈ acc, c ≠ ',' ∧ c ≠ '"') :
    ∀ c ∈ Nat.toDigitsCore b fuel n acc, c ≠ ',' ∧ c ≠ '"' := by
  induction fuel generalizing n acc with
  | zero => simpa [Nat.toDigitsCore] using hacc
  | succ fuel ih =>
    intro c hc
    rw [Nat.toDigitsCore] at hc
    by_cases h : n / b = 0
    · simp only [h, if_pos rfl] at hc
      rcases List.mem_cons.mp hc with h1 | h2
      · subst h1
        exact digitChar_safe _
      · exact hacc _ h2
    · simp only [if_neg h] at hc
      refine ih (n / b) (Nat.digitChar (n % b) :: acc) ?_ c hc
      intro d hd
      rcases List.mem_cons.mp hd with h1 | h2
      · subst h1
        exact digitChar_safe _
      · exact hacc _ h2

lemma natRepr_safe (n : Nat) : ∀ c ∈ (Nat.repr n).data, c ≠ ',' ∧ c ≠ '"' := by
  intro c hc
  have h0 : (Nat.repr n).data = Nat.toDigits 10 n := rfl
  rw [h0] at hc
  exact toDigitsCore_safe 10 (n + 1) n [] (by simp) c hc

lemma intToString_safe (n : Int) : ∀ c ∈ (toString n).data, c ≠ ',' ∧ c ≠ '"' := by
  intro c hc
  match n with
  | .ofNat m =>
    exact natRepr_safe m c hc
  | .negSucc m =>
    have h0 : (toString (Int.negSucc m)).data = '-' :: (Nat.repr (m + 1)).data := rfl
    rw [h0] at hc
    rcases List.mem_cons.mp hc with h1 | h2
    · subst h1
      exact ⟨by decide, by decide⟩
    · exact natRepr_safe (m + 1) c h2

lemma parseRow_quoted_pair (resource : String) (count : Int) :
    parseRow ("\"" ++ (⟨dqChars resource.data⟩ : String) ++ "\"," ++ toString count)
      = [resource, toString count] := by
  unfold parseRow
  have hdata : ("\"" ++ (⟨dqChars resource.data⟩ : String) ++ "\"," ++ toString count).data
      = '"' :: (dqChars resource.data ++ '"' :: ',' :: (toString count).data) := by
    simp
  rw [hdata]
  rw [parseFields.eq_def]
  have hpf : parseField ('"' :: (dqChars resource.data ++ '"' :: ',' :: (toString count).data))
      = (resource, ',' :: (toString count).data) := by
    show ((⟨(parseQuoted (dqChars resource.data ++ '"' :: ',' ::
          (toString count).data)).1⟩ : String),
        (parseQuoted (dqChars resource.data ++ '"' :: ',' :: (toString count).data)).2) = _
    rw [parseQuoted_dq]
  rw [hpf]
  show resource :: parseFields (toString count).data = [resource, toString count]
  rw [parseFields.eq_def]
  rw [parseField_unquoted _ (intToString_safe count)]

lemma dqChars_id (l : List Char) (h : '"' ∉ l) : dqChars l = l := by
  induction l with
  | nil => rfl
  | cons c cs ih =>
    have hc : (c == '"') = false := by
      rw [beq_eq_false_iff_ne]
      intro hh
      exact h (by simp [hh])
    rw [dqChars, hc]
    simp only [Bool.false_eq_true, if_false, List.cons.injEq, true_and]
    exact ih (fun hm => h (by simp [hm]))

lemma escapeField_quoted (s : String) (h : ',' ∈ s.data ∨ '"' ∈ s.data) :
    escapeField (some (Json.str s)) = "\"" ++ (⟨dqChars s.data⟩ : String) ++ "\"" := by
  have hq : s.data.any (fun c => c == ',' || c == '"') = true := by
    rw [List.any_eq_true]
    rcases h with h | h
    · exact ⟨',', h, by simp⟩
    · exact ⟨'"', h, by simp⟩
  simp only [escapeField, fieldString, jsToString, hq, if_true]

lemma escapeField_num (n : Int) : escapeField (some (Json.num n)) = toString n := by
  have h : (toString n).data.any (fun c => c == ',' || c == '"') = false := by
    rw [List.any_eq_false]
    intro c hc
    have h2 := intToString_safe n c hc
    simp [h2.1, h2.2]
  have hnq : '"' ∉ (toString n).data := by
    intro hm
    have h2 := intToString_safe n '"' hm
    simp at h2
  simp only [escapeField, fieldString, jsToString, h, Bool.false_eq_true, if_false]
  rw [dqChars_id _ hnq]

lemma quoted_row_assoc (x : String) (y : String) :
    ("\"" ++ x ++ "\"") ++ "," ++ y = "\"" ++ x ++ "\"," ++ y := by
  apply String.ext
  simp [List.append_assoc]

/-- C4: in the object-array serialization path, a field is wrapped in
double quotes (its serialized form starts and ends with a quote and has
length at least two) exactly when its string value contains a comma or a
double quote; a missing (`undefined`) and a `null` value serialize to the
empty string; and for a ranking record whose `resource` contains a comma
the exported row is `"<resource with quotes doubled>",<count>` —
unquoting and splitting it with the row parser recovers the original
resource string and the count exactly. -/
theorem c4_csv_field_escaping :
    (∀ v : Option Json,
      ((escapeField v).data.head? = some '"' ∧ (escapeField v).data.getLast? = some '"' ∧
          2 ≤ (escapeField v).data.length) ↔
        (fieldString v).data.any (fun c => c == ',' || c == '"') = true) ∧
    escapeField none = "" ∧
    escapeField (some Json.null) = "" ∧
    (∀ (resource : String) (count : Int) (locale : Int → String), ',' ∈ resource.data →
      exportToCsvModel "sources"
          [Json.obj [("resource", Json.str resource), ("count", Json.num count)]] locale =
        ExportOutcome.table ["resource", "count"]
          ["\"" ++ (⟨dqChars resource.data⟩ : String) ++ "\"," ++ toString count] ∧
      parseRow ("\"" ++ (⟨dqChars resource.data⟩ : String) ++ "\"," ++ toString count) =
        [resource, toString count]) := by
  refine ⟨?_, rfl, rfl, ?_⟩
  · intro v
    by_cases hq : (fieldString v).data.any (fun c => c == ',' || c == '"') = true
    · rw [hq]
      simp only [iff_true]
      have he : escapeField v = "\"" ++ (⟨dqChars (fieldString v).data⟩ : String) ++ "\"" := by
        simp only [escapeField, hq, if_true]
      rw [he]
      have hdata : ("\"" ++ (⟨dqChars (fieldString v).data⟩ : String) ++ "\"").data
          = '"' :: (dqChars (fieldString v).data ++ ['"']) := by simp
      rw [hdata]
      refine ⟨by simp, ?_, by simp⟩
      rw [List.getLast?_cons, List.getLast?_append]
      simp
    · rw [Bool.not_eq_true] at hq
      rw [hq]
      simp only [Bool.false_eq_true, iff_false]
      have hnq : '"' ∉ (fieldString v).data := by
        intro hm
        rw [List.any_eq_false] at hq
        have h2 := hq '"' hm
        simp at h2
      have he : escapeField v = fieldString v := by
        simp only [escapeField, hq, Bool.false_eq_true, if_false]
        rw [dqChars_id _ hnq]
      rw [he]
      intro hcontra
      obtain ⟨h1, _, _⟩ := hcontra
      rcases hd : (fieldString v).data with _ | ⟨a, l⟩
      · rw [hd] at h1
        cases h1
      · rw [hd] at h1
        simp only [List.head?_cons, Option.some.injEq] at h1
        refine hnq ?_
        rw [hd, ← h1]
        exact List.mem_cons_self a l
  · intro resource count locale hcomma
    constructor
    · have hx : exportToCsvModel "sources"
          [Json.obj [("resource", Json.str resource), ("count", Json.num count)]] locale =
          ExportOutcome.table ["resource", "count"]
            [escapeField (some (Json.str resource)) ++ "," ++
              escapeField (some (Json.num count))] := rfl
      rw [hx, escapeField_quoted resource (Or.inl hcomma), escapeField_num,
        quoted_row_assoc]
    · exact parseRow_quoted_pair resource count

/-- Witness for C4: the record with `resource` `a,b` and count 3 exports as
the row `"a,b",3`, and parsing the row recovers `a,b` and `3`. -/
theorem c4_csv_field_escaping_witness :
    exportToCsvModel "sources"
        [Json.obj [("resource", Json.str "a,b"), ("count", Json.num 3)]] (fun _ => "") =
      ExportOutcome.table ["resource", "count"] ["\"a,b\",3"] ∧
    parseRow "\"a,b\",3" = ["a,b", "3"] := by
  have h := c4_csv_field_escaping.2.2.2 "a,b" 3 (fun _ => "") (by decide)
  have hs : ("\"" ++ (⟨dqChars ("a,b" : String).data⟩ : String) ++ "\"," ++ toString (3 : Int))
      = "\"a,b\",3" := by decide
  exact ⟨by rw [← hs]; exact h.1, by rw [← hs]; exact h.2⟩

/-- C8 (counterexample): the claim states that an undefined input renders
as `0 Bytes`; in the exporter's `formatBytes` the `bytes === 0` guard does
not catch `undefined`, the `NaN` of `Math.log(undefined)` propagates, and
the result is `NaN undefined`. -/
theorem c8_format_bytes_undefined_counterexample :
    formatBytes none ≠ "0 Bytes" ∧ formatBytes none = "NaN undefined" := by
  exact ⟨by decide, rfl⟩

lemma log1024_1536 : Nat.log 1024 1536 = 1 :=
  Nat.log_eq_of_pow_le_of_lt_pow (by norm_num) (by norm_num)

lemma formatBytes_1536 : formatBytes (some 1536) = "1.5 KB" := by
  have hne : ((some (1536 : Int)) == some 0) = false := by decide
  simp only [formatBytes, hne, Bool.false_eq_true, if_false]
  rw [if_pos (by norm_num)]
  have ht : Int.toNat 1536 = 1536 := rfl
  rw [ht, log1024_1536]
  have hq : ((1536 : Int) : ℚ) / ((1024 : ℚ) ^ (1 : ℕ)) * 100 + 1 / 2 = 301 / 2 := by
    norm_num
  rw [hq]
  have hfl : Int.floor ((301 : ℚ) / 2) = 150 := by
    rw [Int.floor_eq_iff]
    norm_num
  rw [hfl]
  rfl

lemma formatBytes_ladder (b : Int) (i : Nat) (hi : i < 9)
    (h1 : (1024 : Int) ^ i ≤ b) (h2 : b < (1024 : Int) ^ (i + 1)) :
    formatBytes (some b) =
      renderHundredths (Int.floor ((b : ℚ) / ((1024 : ℚ) ^ i) * 100 + 1 / 2)) ++ " " ++
        sizes.getD i "undefined" := by
  have hb : 0 < b := lt_of_lt_of_le (by positivity) h1
  have hne : ((some b) == some (0 : Int)) = false := by
    simp [hb.ne']
  have hcast1 : ((1024 : Int) ^ i) = ((1024 ^ i : Nat) : Int) := by push_cast; ring
  have hcast2 : ((1024 : Int) ^ (i + 1)) = ((1024 ^ (i + 1) : Nat) : Int) := by
    push_cast
    ring
  have hlog : Nat.log 1024 b.toNat = i := by
    apply Nat.log_eq_of_pow_le_of_lt_pow
    · rw [hcast1] at h1
      omega
    · rw [hcast2] at h2
      omega
  simp only [formatBytes, hne, Bool.false_eq_true, if_false]
  rw [if_pos hb, hlog]

/-- C8 (amended): the byte-humanizing function uses base 1024 with the
Bytes/KB/MB/GB/TB/PB/EB/ZB/YB ladder and rounds to two decimals — for every
positive count in the ladder range the rendered value is the count divided
by `1024 ^ i` rounded to hundredths, suffixed with the `i`-th unit; an
input of 0 renders as `0 Bytes`, while an undefined input renders as
`NaN undefined` (not `0 Bytes`); concretely 1536 renders as `1.5 KB`, and
the exporter on kind `bandwidth` with the single record
`{siteBandwidth: 1536, accountBandwidth: 0, start: 0, end: 1000}` produces
a data row whose first field is `1.5 KB` and whose second field is
`0 Bytes`. -/
theorem c8_format_bytes_amended :
    formatBytes (some 0) = "0 Bytes" ∧
    formatBytes none = "NaN undefined" ∧
    formatBytes (some 1536) = "1.5 KB" ∧
    (∀ (b : Int) (i : Nat), i < 9 → (1024 : Int) ^ i ≤ b → b < (1024 : Int) ^ (i + 1) →
      formatBytes (some b) =
        renderHundredths (Int.floor ((b : ℚ) / ((1024 : ℚ) ^ i) * 100 + 1 / 2)) ++ " " ++
          sizes.getD i "undefined") ∧
    (∀ locale : Int → String, ∃ rest,
      exportToCsvModel "bandwidth"
          [Json.obj [("siteBandwidth", Json.num 1536), ("accountBandwidth", Json.num 0),
            ("start", Json.num 0), ("end", Json.num 1000)]] locale =
        ExportOutcome.table ["siteBandwidth", "accountBandwidth", "start", "end"]
          ["1.5 KB,0 Bytes,N/A," ++ rest]) := by
  refine ⟨rfl, rfl, formatBytes_1536, formatBytes_ladder, ?_⟩
  intro locale
  refine ⟨escapeField (some (Json.str (locale 1000))), ?_⟩
  have hmap : bandwidthMapItem locale
      (Json.obj [("siteBandwidth", Json.num 1536), ("accountBandwidth", Json.num 0),
        ("start", Json.num 0), ("end", Json.num 1000)]) =
      Json.obj [("siteBandwidth", Json.str "1.5 KB"),
        ("accountBandwidth", Json.str "0 Bytes"),
        ("start", Json.str "N/A"), ("end", Json.str (locale 1000))] := by
    show Json.obj [("siteBandwidth", Json.str (formatBytes (some 1536))),
        ("accountBandwidth", Json.str "0 Bytes"),
        ("start", Json.str "N/A"), ("end", Json.str (locale 1000))] = _
    rw [formatBytes_1536]
  have hx : exportToCsvModel "bandwidth"
      [Json.obj [("siteBandwidth", Json.num 1536), ("accountBandwidth", Json.num 0),
        ("start", Json.num 0), ("end", Json.num 1000)]] locale =
      ExportOutcome.table ["siteBandwidth", "accountBandwidth", "start", "end"]
        [csvRow ["siteBandwidth", "accountBandwidth", "start", "end"]
          (bandwidthMapItem locale
            (Json.obj [("siteBandwidth", Json.num 1536), ("accountBandwidth", Json.num 0),
              ("start", Json.num 0), ("end", Json.num 1000)]))] := rfl
  rw [hx, hmap]
  rfl

/-- Witness for C8 (amended): the ladder at 1048576 (`1 MB`), and the
bandwidth export row with a concrete locale renderer. -/
theorem c8_format_bytes_amended_witness :
    formatBytes (some 1048576) =
      renderHundredths (Int.floor (((1048576 : Int) : ℚ) / ((1024 : ℚ) ^ 2) * 100 + 1 / 2))
        ++ " " ++ sizes.getD 2 "undefined" ∧
    (∃ rest, exportToCsvModel "bandwidth"
        [Json.obj [("siteBandwidth", Json.num 1536), ("accountBandwidth", Json.num 0),
          ("start", Json.num 0), ("end", Json.num 1000)]] (fun _ => "") =
      ExportOutcome.table ["siteBandwidth", "accountBandwidth", "start", "end"]
        ["1.5 KB,0 Bytes,N/A," ++ rest]) :=
  ⟨c8_format_bytes_amended.2.2.2.1 1048576 2 (by norm_num) (by norm_num) (by norm_num),
    c8_format_bytes_amended.2.2.2.2 (fun _ => "")⟩
